import Mathlib

/-!
Verification of the PageRank estimators of `pagerank.py`.

Modelling conventions (shallow embedding of the Python source):
* a Python dict keyed by page name is modelled as a function `String → ℚ`
  together with the explicit key list of the corpus (Python floats are
  modelled as exact rationals);
* the corpus dict is an association list in insertion order;
* `random.choice` and `random.choices` are modelled by inversion of a
  caller-supplied oracle `ω : ℕ → ℚ` of uniform draws in `[0,1)`;
* the unbounded `while True` loop of `iterate_pagerank` is modelled with
  an explicit fuel parameter, `none` meaning the loop has not converged
  within `fuel` passes;
* for the error-handling claims, a second embedding in the `Except`
  monad makes Python's runtime failure points (`ZeroDivisionError`,
  `IndexError`, `KeyError`) explicit.
-/

/-- A corpus: association list from page name to its outbound links
(`corpus` in `pagerank.py`, a dict from page to set of pages, in
insertion order). -/
abbrev Corpus := List (String × List String)

/-- `corpus.keys()`. -/
def keysOf (c : Corpus) : List String := c.map Prod.fst

/-- `corpus[page]`, defaulting to `[]` for a page absent from the corpus
(the source only reads `corpus[page]` after checking membership or when
the page is a corpus key, so the default is never observed on the
source's paths; it mirrors `linked_pages = 0` for an unknown page). -/
def linksOf : Corpus → String → List String
  | [], _ => []
  | (k, v) :: rest, p => if p = k then v else linksOf rest p

/-- Sum of a page-indexed map over a list of pages
(`sum(dist.values())` over the dict's keys). -/
def sumOver (l : List String) (f : String → ℚ) : ℚ := (l.map f).sum

/-- `transition_model(corpus, page, damping_factor)` (pagerank.py lines
51-75): every corpus key receives the base term `(1-d)/all_pages`; then,
when the current page has outbound links, each linked page receives an
extra `d/linked_pages` (the `+=` loop over the link set, one update per
element). -/
def transition_model (c : Corpus) (page : String) (d : ℚ) : String → ℚ :=
  let all_pages : ℚ := (keysOf c).length
  let linked := linksOf c page
  let linked_pages : ℚ := linked.length
  let base : String → ℚ := fun p => if p ∈ keysOf c then (1 - d) / all_pages else 0
  if linked.length ≠ 0 then
    linked.foldl (fun dist ℓ => fun q => if q = ℓ then dist q + d / linked_pages else dist q) base
  else base

/-- `random.choice(l)`: the element at index `⌊u * len(l)⌋` for a uniform
draw `u ∈ [0,1)` supplied by the oracle. -/
def uniformPick (l : List String) (u : ℚ) : String :=
  l.getD (Int.toNat ⌊u * (l.length : ℚ)⌋) ""

/-- Cumulative-inversion kernel of `random.choices`: walk the weighted
items, subtracting each weight from the target until the target falls
below the weight at hand. -/
def wpick : List (String × ℚ) → ℚ → String
  | [], _ => ""
  | [(s, _)], _ => s
  | (s, w) :: e :: rest, t => if t < w then s else wpick (e :: rest) (t - w)

/-- `random.choices(list(dist.keys()), list(dist.values()))[0]` for a
distribution over the corpus keys (a dict built while iterating the
corpus keys, hence listed in corpus order), driven by a uniform draw. -/
def weightedDraw (c : Corpus) (dist : String → ℚ) (u : ℚ) : String :=
  wpick ((keysOf c).map fun p => (p, dist p)) (u * sumOver (keysOf c) dist)

/-- The `for i in range(n-1)` loop of `sample_pagerank` (pagerank.py
lines 92-96).  Arguments after the oracle: remaining steps, next oracle
index, current sample, accumulator. -/
def sampleLoop (c : Corpus) (d : ℚ) (n : ℕ) (ω : ℕ → ℚ) :
    ℕ → ℕ → String → (String → ℚ) → (String → ℚ)
  | 0, _, _, acc => acc
  | steps + 1, k, current, acc =>
    let dist := transition_model c current d
    let acc' : String → ℚ := fun p => if p ∈ keysOf c then acc p + dist p / (n : ℚ) else acc p
    sampleLoop c d n ω steps (k + 1) (weightedDraw c dist (ω k)) acc'

/-- `sample_pagerank(corpus, damping_factor, n)` (pagerank.py lines
78-98), with the random source made explicit as the oracle `ω`. -/
def sample_pagerank (c : Corpus) (d : ℚ) (n : ℕ) (ω : ℕ → ℚ) : String → ℚ :=
  sampleLoop c d n ω (n - 1) 1 (uniformPick (keysOf c) (ω 0)) fun _ => 0

/-- One pass of the update loop of `iterate_pagerank` (pagerank.py lines
118-122): `new_pagerank[page] = (1-d)/N` plus, for every corpus key `i`
whose links contain `page`, `damping * pagerank[i] / len(corpus[i])`. -/
def newRank (c : Corpus) (d : ℚ) (rank : String → ℚ) : String → ℚ := fun page =>
  if page ∈ keysOf c then
    (1 - d) / ((keysOf c).length : ℚ) +
      sumOver (keysOf c) fun i =>
        if page ∈ linksOf c i then d * rank i / ((linksOf c i).length : ℚ) else 0
  else 0

/-- The convergence test of pagerank.py lines 124-127 (a loop with early
`break`, equivalent to: every page moved by less than `0.001` in
absolute value). -/
def convergedAt (c : Corpus) (old new : String → ℚ) : Bool :=
  (keysOf c).all fun p => decide (|new p - old p| < 1 / 1000)

/-- The `while True` loop of `iterate_pagerank` (pagerank.py lines
115-132), with fuel; `none` means the loop has not converged within
`fuel` passes.  On convergence the code `break`s before the
`pagerank = new_pagerank` assignment, so it returns `rank`, the vector
from before the final update. -/
def iterLoop (c : Corpus) (d : ℚ) : ℕ → (String → ℚ) → Option (String → ℚ)
  | 0, _ => none
  | fuel + 1, rank =>
    let new := newRank c d rank
    if convergedAt c rank new then some rank else iterLoop c d fuel new

/-- The initialisation loop of `iterate_pagerank` (pagerank.py lines
110-113): every corpus key starts at `1/N`. -/
def initRank (c : Corpus) : String → ℚ :=
  fun p => if p ∈ keysOf c then 1 / ((keysOf c).length : ℚ) else 0

/-- `iterate_pagerank(corpus, damping_factor)` (pagerank.py lines
101-134), fuelled. -/
def iterate_pagerank (c : Corpus) (d : ℚ) (fuel : ℕ) : Option (String → ℚ) :=
  iterLoop c d fuel (initRank c)

/-- Read one page's rank out of an optional rank vector (`0` when
`none`). -/
def rankAt (o : Option (String → ℚ)) (p : String) : ℚ := (o.map fun f => f p).getD 0

/-- Python division: raises `ZeroDivisionError` on a zero denominator. -/
def pydiv (a b : ℚ) : Except String ℚ :=
  if b = 0 then .error "ZeroDivisionError" else .ok (a / b)

/-- `random.choice`: raises `IndexError` on an empty sequence. -/
def pychoice (l : List String) (u : ℚ) : Except String String :=
  match l with
  | [] => .error "IndexError"
  | _ :: _ => .ok (uniformPick l u)

/-- `transition_model` with Python's runtime failure points explicit:
each division can raise `ZeroDivisionError`, and
`probability_distribution[current_page] += ...` raises `KeyError` when a
link target is not a corpus key. -/
def transition_modelE (c : Corpus) (page : String) (d : ℚ) : Except String (String → ℚ) := do
  let all_pages : ℚ := (keysOf c).length
  let linked := linksOf c page
  let linked_pages : ℚ := linked.length
  let base ← (keysOf c).foldlM
    (fun (dist : String → ℚ) p => do
      let v ← pydiv (1 - d) all_pages
      pure fun q => if q = p then v else dist q)
    (fun _ => (0 : ℚ))
  if linked.length ≠ 0 then
    linked.foldlM
      (fun (dist : String → ℚ) ℓ => do
        if ℓ ∈ keysOf c then
          let v ← pydiv d linked_pages
          pure fun q => if q = ℓ then dist q + v else dist q
        else .error "KeyError")
      base
  else pure base

/-- The loop of `sample_pagerank` with Python's failure points
explicit. -/
def sampleLoopE (c : Corpus) (d : ℚ) (n : ℕ) (ω : ℕ → ℚ) :
    ℕ → ℕ → String → (String → ℚ) → Except String (String → ℚ)
  | 0, _, _, acc => .ok acc
  | steps + 1, k, current, acc => do
    let dist ← transition_modelE c current d
    let acc' ← (keysOf c).foldlM
      (fun (a : String → ℚ) p => do
        let v ← pydiv (dist p) (n : ℚ)
        pure fun q => if q = p then a q + v else a q)
      acc
    sampleLoopE c d n ω steps (k + 1) (weightedDraw c dist (ω k)) acc'

/-- `sample_pagerank` with Python's failure points explicit: the first
draw `random.choice(list(corpus.keys()))` raises `IndexError` on an
empty corpus. -/
def sample_pagerankE (c : Corpus) (d : ℚ) (n : ℕ) (ω : ℕ → ℚ) :
    Except String (String → ℚ) := do
  let first ← pychoice (keysOf c) (ω 0)
  sampleLoopE c d n ω (n - 1) 1 first fun _ => 0

/-- The error message of a computation, `none` when it returned
normally. -/
def errOf (e : Except String (String → ℚ)) : Option String :=
  match e with
  | .ok _ => none
  | .error s => some s

/-- Read one page's value out of a normally returned map (`0` on
error). -/
def okAt (e : Except String (String → ℚ)) (p : String) : ℚ :=
  match e with
  | .ok f => f p
  | .error _ => 0

/-- Modelled from the spec, section 4.4 step 2:
`new_rank[p] = (1-damping)/N + damping * Σ over pages i that link to p
of (rank[i]/outdegree(i))`, a page with zero outbound links contributing
zero to the sum. -/
def spec_newRank (c : Corpus) (d : ℚ) (rank : String → ℚ) : String → ℚ := fun p =>
  if p ∈ keysOf c then
    (1 - d) / ((keysOf c).length : ℚ) +
      d * sumOver (keysOf c) fun i =>
        if p ∈ linksOf c i then rank i / ((linksOf c i).length : ℚ) else 0
  else 0

/-- Modelled from the spec, section 4.4 step 3: stop exactly when every
page moved by less than `0.001` in absolute value, otherwise replace
`rank` with `new_rank` and repeat. -/
def spec_iterLoop (c : Corpus) (d : ℚ) : ℕ → (String → ℚ) → Option (String → ℚ)
  | 0, _ => none
  | fuel + 1, rank =>
    let new := spec_newRank c d rank
    if ∀ p ∈ keysOf c, |new p - rank p| < 1 / 1000 then some rank
    else spec_iterLoop c d fuel new

/-- Modelled from the spec, section 4.4 step 1: every rank starts at
`1/N`. -/
def spec_iterate (c : Corpus) (d : ℚ) (fuel : ℕ) : Option (String → ℚ) :=
  spec_iterLoop c d fuel (initRank c)

/-- Modelled from the spec, section 4.3 step 3, word for word: at each of
the further steps, add to every page's accumulator that page's
probability under the current Transition Model distribution multiplied
by `1/sample_count`, then draw the next current page from that same
distribution. -/
def spec_sampleLoop (c : Corpus) (d : ℚ) (n : ℕ) (ω : ℕ → ℚ) :
    ℕ → ℕ → String → (String → ℚ) → (String → ℚ)
  | 0, _, _, acc => acc
  | steps + 1, k, current, acc =>
    let dist := transition_model c current d
    let acc' : String → ℚ :=
      fun p => if p ∈ keysOf c then acc p + dist p * (1 / (n : ℚ)) else acc p
    spec_sampleLoop c d n ω steps (k + 1) (weightedDraw c dist (ω k)) acc'

/-- Modelled from the spec, section 4.3: first sample uniformly at
random among all pages, then `sample_count - 1` accumulation steps; the
returned Rank Vector is the accumulator. -/
def spec_sample (c : Corpus) (d : ℚ) (n : ℕ) (ω : ℕ → ℚ) : String → ℚ :=
  spec_sampleLoop c d n ω (n - 1) 1 (uniformPick (keysOf c) (ω 0)) fun _ => 0

/-- The two-page symmetric graph: A links to B, B links to A. -/
def corpusAB : Corpus := [("A", ["B"]), ("B", ["A"])]

/-- The dangling-page graph `{A: {B}, B: {}}`. -/
def corpusDangling : Corpus := [("A", ["B"]), ("B", [])]

/-- The single-page graph `{A: {}}` (one page, no links). -/
def corpusSingle : Corpus := [("A", [])]

/-- An asymmetric three-page graph used to exhibit convergence with a
nonzero final step: A links to B, B links to A and C, C links to B. -/
def corpusY : Corpus := [("A", ["B"]), ("B", ["A", "C"]), ("C", ["B"])]

theorem strAB : (("A" : String) = "B") = False := by decide

theorem strBA : (("B" : String) = "A") = False := by decide

theorem strAC : (("A" : String) = "C") = False := by decide

theorem strCA : (("C" : String) = "A") = False := by decide

theorem strBC : (("B" : String) = "C") = False := by decide

theorem strCB : (("C" : String) = "B") = False := by decide

/-- Folding the `+= w` update over a duplicate-free link list adds `w`
exactly once to each listed page and leaves every other page alone. -/
theorem foldl_add_one_each (w : ℚ) (q : String) :
    ∀ (links : List String) (g : String → ℚ), links.Nodup →
      (links.foldl (fun dist ℓ => fun r => if r = ℓ then dist r + w else dist r) g) q =
        if q ∈ links then g q + w else g q := by
  intro links
  induction links with
  | nil => intro g _; simp
  | cons a t ih =>
    intro g hnd
    rw [List.foldl_cons, ih _ (List.Nodup.of_cons hnd)]
    by_cases hqa : q = a
    · subst hqa
      have hq : q ∉ t := (List.nodup_cons.mp hnd).1
      simp [hq]
    · simp [hqa, List.mem_cons]

theorem sumOver_nil (f : String → ℚ) : sumOver [] f = 0 := rfl

theorem sumOver_cons (a : String) (t : List String) (f : String → ℚ) :
    sumOver (a :: t) f = f a + sumOver t f := by
  simp [sumOver]

/-- The damping factor distributes out of the per-page link sum. -/
theorem sum_damped (d : ℚ) (p : String) (c : Corpus) (rank : String → ℚ) :
    ∀ l : List String,
      sumOver l (fun i => if p ∈ linksOf c i then d * rank i / ((linksOf c i).length : ℚ) else 0) =
        d * sumOver l (fun i => if p ∈ linksOf c i then rank i / ((linksOf c i).length : ℚ) else 0)
  | [] => by simp [sumOver_nil]
  | a :: t => by
    rw [sumOver_cons, sumOver_cons, sum_damped d p c rank t, mul_add]
    by_cases ha : p ∈ linksOf c a
    · rw [if_pos ha, if_pos ha, mul_div_assoc]
    · rw [if_neg ha, if_neg ha, mul_zero]

/-- The code's update pass equals the spec's recurrence
`(1-d)/N + d * Σ rank[i]/outdegree(i)`. -/
theorem newRank_eq_spec (c : Corpus) (d : ℚ) (rank : String → ℚ) :
    newRank c d rank = spec_newRank c d rank := by
  funext p
  unfold newRank spec_newRank
  by_cases hp : p ∈ keysOf c
  · rw [if_pos hp, if_pos hp, sum_damped]
  · rw [if_neg hp, if_neg hp]

/-- The code's convergence flag is the spec's universally quantified
stopping condition. -/
theorem convergedAt_iff (c : Corpus) (old new : String → ℚ) :
    convergedAt c old new = true ↔ ∀ p ∈ keysOf c, |new p - old p| < 1 / 1000 := by
  simp [convergedAt, List.all_eq_true]

/-- The code's iteration loop coincides step for step with the loop
written from the spec's words. -/
theorem iterLoop_eq_spec (c : Corpus) (d : ℚ) :
    ∀ (fuel : ℕ) (rank : String → ℚ), iterLoop c d fuel rank = spec_iterLoop c d fuel rank
  | 0, _ => rfl
  | fuel + 1, rank => by
    simp only [iterLoop, spec_iterLoop, newRank_eq_spec]
    by_cases h : ∀ p ∈ keysOf c, |spec_newRank c d rank p - rank p| < 1 / 1000
    · rw [if_pos ((convergedAt_iff c rank (spec_newRank c d rank)).mpr h), if_pos h]
    · rw [if_neg (fun hb => h ((convergedAt_iff c rank (spec_newRank c d rank)).mp hb)),
        if_neg h, iterLoop_eq_spec c d fuel (spec_newRank c d rank)]

/-- Claim C2: for every graph, the Iterative Estimator computes each step
`new_rank[p] = (1-damping)/N + damping * Σ over pages i that link to p of
rank[i]/outdegree(i)` (a page with zero outbound links contributing zero),
starts from every rank equal to `1/N`, and stops exactly when every page
satisfies `|new_rank[p] - rank[p]| < 0.001`, otherwise replacing `rank`
with `new_rank` and repeating: the fuelled embedding of the source loop
equals, for every fuel, the loop transcribed from the spec's words. -/
theorem iterate_matches_spec (c : Corpus) (d : ℚ) (fuel : ℕ) :
    iterate_pagerank c d fuel = spec_iterate c d fuel :=
  iterLoop_eq_spec c d fuel (initRank c)

/-- The code's sampling loop coincides step for step with the loop
written from the spec's words (the only textual difference being
`dist p / n` against `dist p * (1/n)`). -/
theorem sampleLoop_eq_spec (c : Corpus) (d : ℚ) (n : ℕ) (ω : ℕ → ℚ) :
    ∀ (steps k : ℕ) (current : String) (acc : String → ℚ),
      sampleLoop c d n ω steps k current acc = spec_sampleLoop c d n ω steps k current acc
  | 0, _, _, _ => rfl
  | steps + 1, k, current, acc => by
    simp only [sampleLoop, spec_sampleLoop]
    have hacc : (fun p => if p ∈ keysOf c then
          acc p + transition_model c current d p / (n : ℚ) else acc p) =
        (fun p => if p ∈ keysOf c then
          acc p + transition_model c current d p * (1 / (n : ℚ)) else acc p) := by
      funext p
      by_cases hp : p ∈ keysOf c
      · rw [if_pos hp, if_pos hp, div_eq_mul_one_div]
      · rw [if_neg hp, if_neg hp]
    rw [hacc]
    exact sampleLoop_eq_spec c d n ω steps (k + 1) _ _

/-- Claim C5: the Sampling Estimator chooses the first sample uniformly at
random among all pages, then for exactly `sample_count - 1` further steps
computes the Transition Model distribution of the current page, adds to
every page's accumulator that page's probability multiplied by
`1/sample_count` (expected visitation mass, not one discrete credit), and
draws the next current page from that same distribution; the returned
Rank Vector is the accumulator: the embedding of the source equals, for
every graph, damping, sample count and random oracle, the estimator
transcribed from the spec's words. -/
theorem sample_matches_spec (c : Corpus) (d : ℚ) (n : ℕ) (ω : ℕ → ℚ) :
    sample_pagerank c d n ω = spec_sample c d n ω :=
  sampleLoop_eq_spec c d n ω (n - 1) 1 (uniformPick (keysOf c) (ω 0)) fun _ => 0

/-- Claim C6: for a page with at least one outbound link (its link set
duplicate-free, as a Python set is), the Transition Model assigns every
page of the graph the base term `(1-damping)/N`, and each linked page
additionally `damping/L`. -/
theorem transition_model_linked (c : Corpus) (page q : String) (d : ℚ)
    (hnd : (linksOf c page).Nodup) (hL : linksOf c page ≠ []) (hq : q ∈ keysOf c) :
    transition_model c page d q =
      (1 - d) / ((keysOf c).length : ℚ) +
        if q ∈ linksOf c page then d / ((linksOf c page).length : ℚ) else 0 := by
  have hlen : (linksOf c page).length ≠ 0 := fun h => hL (List.length_eq_zero.mp h)
  simp only [transition_model]
  rw [if_pos hlen, foldl_add_one_each _ q (linksOf c page) _ hnd]
  by_cases hmem : q ∈ linksOf c page
  · rw [if_pos hmem, if_pos hmem, if_pos hq]
  · rw [if_neg hmem, if_neg hmem, if_pos hq, add_zero]

/-- Claim C6, witness: the two-page graph where A links to B, at page A,
target page B, damping 0.85. -/
theorem transition_model_linked_w :
    transition_model corpusAB "A" (17/20) "B" =
      (1 - 17/20 : ℚ) / ((keysOf corpusAB).length : ℚ) +
        if "B" ∈ linksOf corpusAB "A" then
          (17/20 : ℚ) / ((linksOf corpusAB "A").length : ℚ) else 0 :=
  transition_model_linked corpusAB "A" "B" (17/20) (by decide) (by decide) (by decide)

/-- Claim C1 (code evaluated at the failing input): on the graph
`{A: {B}, B: {}}` with damping 0.85, the Transition Model for the
dangling page B returns 0.075 for each page, total 0.15 - the damping
mass is lost, not redistributed uniformly as the spec requires, and the
returned values do not sum to 1. -/
theorem transition_model_dangling_eval :
    transition_model corpusDangling "B" (17/20) "A" = 3/40 ∧
    transition_model corpusDangling "B" (17/20) "B" = 3/40 ∧
    sumOver (keysOf corpusDangling) (transition_model corpusDangling "B" (17/20)) = 3/20 := by
  norm_num [transition_model, corpusDangling, keysOf, linksOf, sumOver, strAB, strBA]

/-- Claim C3 (code evaluated at the failing input): with `sample_count`
equal to 1 the Sampling Estimator's loop runs `n-1 = 0` times and the
returned accumulator is identically zero for every random oracle, so its
values sum to 0, not to 1 within 0.001 (in general the loop adds
`1/n` of a distribution only `n-1` times). -/
theorem sample_sum_one_eval (ω : ℕ → ℚ) :
    sumOver (keysOf corpusAB) (sample_pagerank corpusAB (17/20) 1 ω) = 0 := by
  simp [sample_pagerank, sampleLoop, sumOver, keysOf, corpusAB]

/-- Claim C4 (code evaluated at the failing input): on the single-page
graph `{A: {}}` with damping 0.85 the Iterative Estimator converges to
`{A: 0.15}` (the dangling page contributes zero to the recurrence) and
the Sampling Estimator with `sample_count = 2` returns `{A: 0.075}`;
neither returns `{A: 1.0}`. -/
theorem single_page_eval :
    (iterate_pagerank corpusSingle (17/20) 2).isSome = true ∧
    rankAt (iterate_pagerank corpusSingle (17/20) 2) "A" = 3/20 ∧
    sample_pagerank corpusSingle (17/20) 2 (fun _ => 0) "A" = 3/40 := by
  norm_num [iterate_pagerank, iterLoop, initRank, newRank, convergedAt, corpusSingle, keysOf,
    linksOf, sumOver, rankAt, abs_sub_lt_iff, sample_pagerank, sampleLoop, uniformPick,
    transition_model, weightedDraw, wpick, List.getD, strAB, strBA]

/-- Claim C7: on the two-page symmetric graph (A links to B, B links to
A) with damping 0.85 the Iterative Estimator converges - for every
sufficient fuel the fuelled loop returns at its very first convergence
check - and returns the Rank Vector assigning 1/2 to A and 1/2 to B. -/
theorem iterate_two_cycle (fuel : ℕ) (hf : 1 ≤ fuel) :
    (iterate_pagerank corpusAB (17/20) fuel).isSome = true ∧
    rankAt (iterate_pagerank corpusAB (17/20) fuel) "A" = 1/2 ∧
    rankAt (iterate_pagerank corpusAB (17/20) fuel) "B" = 1/2 := by
  obtain ⟨k, rfl⟩ : ∃ k, fuel = k + 1 := ⟨fuel - 1, (Nat.succ_pred_eq_of_pos hf).symm⟩
  have hcv : convergedAt corpusAB (initRank corpusAB)
      (newRank corpusAB (17/20) (initRank corpusAB)) = true := by
    norm_num [convergedAt, newRank, initRank, corpusAB, keysOf, linksOf, sumOver,
      abs_sub_lt_iff, strAB, strBA]
  simp only [iterate_pagerank, iterLoop]
  rw [if_pos hcv]
  refine ⟨rfl, ?_, ?_⟩ <;> norm_num [rankAt, initRank, corpusAB, keysOf]

/-- Claim C7, witness: fuel 1 already suffices. -/
theorem iterate_two_cycle_w :
    (iterate_pagerank corpusAB (17/20) 1).isSome = true ∧
    rankAt (iterate_pagerank corpusAB (17/20) 1) "A" = 1/2 ∧
    rankAt (iterate_pagerank corpusAB (17/20) 1) "B" = 1/2 :=
  iterate_two_cycle 1 (Nat.le_refl 1)

set_option maxHeartbeats 2000000 in
/-- Claim C10: when the convergence check first succeeds the loop returns
the rank vector from before the final recurrence application, not the
freshly computed one; on the asymmetric three-page graph with damping 1/2
the two vectors differ at page A while every page's difference is below
0.001. -/
theorem iterate_returns_previous :
    (∀ (c : Corpus) (d : ℚ) (rank : String → ℚ) (fuel : ℕ),
        convergedAt c rank (newRank c d rank) = true →
        iterLoop c d (fuel + 1) rank = some rank) ∧
    rankAt (iterate_pagerank corpusY (1/2) 9) "A" ≠
      rankAt ((iterate_pagerank corpusY (1/2) 9).map (newRank corpusY (1/2))) "A" ∧
    ∀ p ∈ keysOf corpusY,
      |rankAt ((iterate_pagerank corpusY (1/2) 9).map (newRank corpusY (1/2))) p -
        rankAt (iterate_pagerank corpusY (1/2) 9) p| < 1/1000 := by
  refine ⟨?_, ?_, ?_⟩
  · intro c d rank fuel h
    simp only [iterLoop]
    rw [if_pos h]
  · norm_num [iterate_pagerank, iterLoop, initRank, newRank, convergedAt, corpusY, keysOf,
      linksOf, sumOver, rankAt, abs_sub_lt_iff, strAB, strBA, strAC, strCA, strBC, strCB]
  · norm_num [iterate_pagerank, iterLoop, initRank, newRank, convergedAt, corpusY, keysOf,
      linksOf, sumOver, rankAt, abs_sub_lt_iff, List.forall_mem_cons,
      strAB, strBA, strAC, strCA, strBC, strCB]

/-- Claim C10, witness: the returned-vector-is-the-previous-iterate rule
instantiated on the empty corpus, whose convergence check holds
vacuously. -/
theorem iterate_returns_previous_w :
    iterLoop ([] : Corpus) 0 (0 + 1) (fun _ => 0) = some (fun _ => 0) :=
  iterate_returns_previous.1 [] 0 (fun _ => 0) 0 rfl

/-- Claim C8, counterexample: on the empty graph the Iterative Estimator
does return a value (the loop body is vacuous and the convergence check
passes immediately), and the Sampling Estimator fails with `IndexError`
from `random.choice([])`, not with a dedicated empty-graph error. -/
theorem empty_graph_counterexample :
    (iterate_pagerank ([] : Corpus) (17/20) 1).isSome = true ∧
    errOf (sample_pagerankE ([] : Corpus) (17/20) 10 fun _ => 0) = some "IndexError" :=
  ⟨rfl, rfl⟩

/-- Claim C8, amended: for every damping, sample count, oracle and fuel,
the Sampling Estimator on the empty graph raises `IndexError` at its
first draw, while the Iterative Estimator returns the empty rank vector
immediately. -/
theorem empty_graph_behavior (d : ℚ) (n : ℕ) (ω : ℕ → ℚ) (fuel : ℕ) :
    errOf (sample_pagerankE ([] : Corpus) d n ω) = some "IndexError" ∧
    iterate_pagerank ([] : Corpus) d (fuel + 1) = some (initRank []) :=
  ⟨rfl, rfl⟩

/-- Claim C9, counterexample: with damping 2 (outside (0,1)) the
Transition Model returns normally - no invalid-damping rejection - and
its "distribution" assigns page A the negative value -1/2. -/
theorem invalid_damping_counterexample :
    errOf (transition_modelE corpusAB "A" 2) = none ∧
    okAt (transition_modelE corpusAB "A" 2) "A" = -(1/2) := by
  constructor
  · norm_num [transition_modelE, corpusAB, keysOf, linksOf, pydiv, errOf,
      List.foldlM_cons, List.foldlM_nil, Except.bind, bind, Except.pure, pure, strAB, strBA]
  · norm_num [transition_modelE, corpusAB, keysOf, linksOf, pydiv, okAt,
      List.foldlM_cons, List.foldlM_nil, Except.bind, bind, Except.pure, pure, strAB, strBA]

/-- Claim C9, amended: no component validates the damping factor; with
damping 2 on the two-page graph the Transition Model yields the
degenerate entry -1/2 for A, and both estimators also run to completion
without any error. -/
theorem invalid_damping_behavior :
    okAt (transition_modelE corpusAB "A" 2) "A" = -(1/2) ∧
    errOf (sample_pagerankE corpusAB 2 2 fun _ => 0) = none ∧
    (iterate_pagerank corpusAB 2 1).isSome = true := by
  refine ⟨?_, ?_, ?_⟩
  · norm_num [transition_modelE, corpusAB, keysOf, linksOf, pydiv, okAt,
      List.foldlM_cons, List.foldlM_nil, Except.bind, bind, Except.pure, pure, strAB, strBA]
  · norm_num [sample_pagerankE, sampleLoopE, transition_modelE, corpusAB, keysOf, linksOf,
      pydiv, pychoice, uniformPick, errOf, weightedDraw, wpick, sumOver, List.getD,
      List.cons_ne_nil, List.foldlM_cons, List.foldlM_nil, Except.bind, bind, Except.pure,
      pure, strAB, strBA]
  · norm_num [iterate_pagerank, iterLoop, initRank, newRank, convergedAt, corpusAB, keysOf,
      linksOf, sumOver, abs_sub_lt_iff, strAB, strBA]
